import Mathlib

/-!
# Shai: the request/response core of `cmd/cli/main.go`

A shallow embedding of the chat client of `main.go`: the data model
(`Config`, `Message`, `ChatRequest`, `ChatResponse`), `loadConfig`,
`sendMessage`, `executor`, and the initial transcript built by `main`.

Conventions of the embedding.

* Go strings are Lean `String`s (sequences of Unicode scalar values).
* A Go `error` is an `Option String`: `none` is `nil`, `some m` is an error
  whose `Error()` text is `m`.  `fmt.Errorf("...: %w", err)` is string
  concatenation with the text of `err`.
* The package-level variables `config` and `messages` are the fields of
  `State`, threaded explicitly.  `State.trace` is a ghost log of the effects
  the code performs (terminal output, the value handed to `json.Marshal`,
  the request handed to `client.Do`).
* What the code cannot decide itself (the bytes `json.Marshal` produces,
  whether the URL is accepted by `http.NewRequest`, what the network answers,
  whether the markdown renderer fails) is a field of `World`, universally
  quantified in the theorems.
* `encoding/json.Unmarshal` and `strings.TrimSpace` are deterministic library
  functions; they are modelled by the executable definitions `jsonUnmarshal`
  and `trimSpace` below.
-/

namespace Shai

/-! ## Data model (`main.go`, lines 22-49) -/

/-- The `Config` struct. -/
structure Config where
  LLMAPIURL : String
  LLMAPIKey : String
  Model : String
deriving DecidableEq, Repr

/-- The `Message` struct. -/
structure Message where
  Role : String
  Content : String
deriving DecidableEq, Repr

/-- The `ChatRequest` struct. -/
structure ChatRequest where
  Model : String
  Messages : List Message
deriving DecidableEq, Repr

/-- The anonymous struct of the field `Message` of a choice. -/
structure ChoiceMessage where
  Role : String
  Content : String
deriving DecidableEq, Repr

/-- The anonymous struct that is the element type of `ChatResponse.Choices`. -/
structure Choice where
  Index : Int
  Message : ChoiceMessage
deriving DecidableEq, Repr

/-- The `ChatResponse` struct. -/
structure ChatResponse where
  ID : String
  Object : String
  Created : Int
  Choices : List Choice
deriving DecidableEq, Repr

/-- Zero value of the struct inside a choice. -/
def ChoiceMessage.zero : ChoiceMessage := ⟨"", ""⟩

/-- Zero value of a choice. -/
def Choice.zero : Choice := ⟨0, ChoiceMessage.zero⟩

/-- Zero value of `ChatResponse`, the value of `var chatResp ChatResponse`. -/
def ChatResponse.zero : ChatResponse := ⟨"", "", 0, []⟩

/-- Zero value of `Config`, the value of the package variable `config` at start. -/
def Config.zero : Config := ⟨"", "", ""⟩

/-! ## Model of `encoding/json.Unmarshal` into a `ChatResponse`

The input is first checked to be one well-formed JSON value (the library's
`checkValid`), then decoded into the struct: object keys are matched to the
`json` tags ignoring case, unknown keys are skipped, `null` leaves a string,
number or struct untouched and sets a slice to `nil`, and a JSON value of
the wrong kind is a type error.  The text of the library's errors is
abstracted to a short description; only the wrapper texts written in
`main.go` are exact.  Both passes are folds, so the model is total and needs
no fuel.  As in the library, input with more than 10000 arrays and objects
open at once is rejected.  Not modelled: input that is not valid UTF-8. -/

/-- JSON values; a number keeps its literal text. -/
inductive JSON where
  | null
  | bool (b : Bool)
  | num (lit : List Char)
  | str (s : String)
  | arr (elems : List JSON)
  | obj (members : List (String × JSON))

/-- Lexical tokens of JSON. -/
inductive Token where
  | lbrace
  | rbrace
  | lbrack
  | rbrack
  | colon
  | comma
  | str (s : String)
  | num (lit : List Char)
  | litTrue
  | litFalse
  | litNull

/-- One item of a string literal: a character, or a `\uXXXX` code unit. -/
inductive StrItem where
  | ch (c : Char)
  | esc (u : Nat)

/-- Mode of the lexer. `acc` lists are in reverse order. -/
inductive LexMode where
  | top
  | word (acc : List Char)
  | inStr (acc : List StrItem)
  | afterBackslash (acc : List StrItem)
  | hex (acc : List StrItem) (digits : List Nat)

/-- State of the lexer: mode and the tokens produced so far, reversed. -/
structure LexState where
  mode : LexMode
  toks : List Token

/-- The four white space characters of JSON. -/
def isJSONSpace (c : Char) : Bool :=
  c.toNat = 32 || c.toNat = 9 || c.toNat = 10 || c.toNat = 13

/-- Characters that make up numbers and the literals true, false, null. -/
def isWordChar (c : Char) : Bool :=
  c.isAlphanum || c = '-' || c = '+' || c = '.'

/-- Exponent part of a number, or nothing. -/
def expPartOK (cs : List Char) : Bool :=
  match cs with
  | [] => true
  | c :: r =>
    (c = 'e' || c = 'E') &&
      (let ds := match r with
        | '+' :: x => x
        | '-' :: x => x
        | _ => r
       !ds.isEmpty && ds.all Char.isDigit)

/-- Fraction and exponent part of a number, or nothing. -/
def fracExpOK (cs : List Char) : Bool :=
  match cs with
  | '.' :: r => !(r.takeWhile Char.isDigit).isEmpty && expPartOK (r.dropWhile Char.isDigit)
  | _ => expPartOK cs

/-- The JSON number grammar. -/
def numberOK (cs : List Char) : Bool :=
  let body := match cs with
    | '-' :: r => r
    | _ => cs
  match body with
  | [] => false
  | d :: r =>
    d.isDigit && fracExpOK (if d = '0' then r else r.dropWhile Char.isDigit)

/-- Token of a completed word (given in reverse). -/
def closeWord (acc : List Char) : Option Token :=
  let w := acc.reverse
  if w = ['t', 'r', 'u', 'e'] then some Token.litTrue
  else if w = ['f', 'a', 'l', 's', 'e'] then some Token.litFalse
  else if w = ['n', 'u', 'l', 'l'] then some Token.litNull
  else if numberOK w then some (Token.num w)
  else none

/-- Value of a hexadecimal digit. -/
def hexVal (c : Char) : Option Nat :=
  if c.isDigit then some (c.toNat - 48)
  else if 97 ≤ c.toNat ∧ c.toNat ≤ 102 then some (c.toNat - 87)
  else if 65 ≤ c.toNat ∧ c.toNat ≤ 70 then some (c.toNat - 55)
  else none

/-- Is the code unit a UTF-16 surrogate. -/
def isSurrogate (u : Nat) : Bool := 0xD800 ≤ u && u < 0xE000

/-- Character of a lone code unit; a lone surrogate is U+FFFD. -/
def unitChar (u : Nat) : Char :=
  if isSurrogate u then Char.ofNat 0xFFFD else Char.ofNat u

/-- Is the code unit a high (leading) surrogate. -/
def isHighSurrogate (u : Nat) : Bool := 0xD800 ≤ u && u < 0xDC00

/-- Is the code unit a low (trailing) surrogate. -/
def isLowSurrogate (u : Nat) : Bool := 0xDC00 ≤ u && u < 0xE000

/-- Characters of a string literal. `pending` is a high surrogate escape just
read: it is combined with a low surrogate escape that follows it directly,
and is U+FFFD otherwise. -/
def decodeItems : Option Nat → List StrItem → List Char
  | none, [] => []
  | some hi, [] => [unitChar hi]
  | none, StrItem.ch c :: rest => c :: decodeItems none rest
  | some hi, StrItem.ch c :: rest => unitChar hi :: c :: decodeItems none rest
  | none, StrItem.esc u :: rest =>
    if isHighSurrogate u then decodeItems (some u) rest
    else unitChar u :: decodeItems none rest
  | some hi, StrItem.esc u :: rest =>
    if isLowSurrogate u then
      Char.ofNat (0x10000 + (hi - 0xD800) * 0x400 + (u - 0xDC00)) :: decodeItems none rest
    else if isHighSurrogate u then unitChar hi :: decodeItems (some u) rest
    else unitChar hi :: unitChar u :: decodeItems none rest

/-- Lexer step outside of a word or string. -/
def lexTop (toks : List Token) (c : Char) : Option LexState :=
  if isJSONSpace c then some ⟨LexMode.top, toks⟩
  else if c = '{' then some ⟨LexMode.top, Token.lbrace :: toks⟩
  else if c = '}' then some ⟨LexMode.top, Token.rbrace :: toks⟩
  else if c = '[' then some ⟨LexMode.top, Token.lbrack :: toks⟩
  else if c = ']' then some ⟨LexMode.top, Token.rbrack :: toks⟩
  else if c = ':' then some ⟨LexMode.top, Token.colon :: toks⟩
  else if c = ',' then some ⟨LexMode.top, Token.comma :: toks⟩
  else if c.toNat = 34 then some ⟨LexMode.inStr [], toks⟩
  else if isWordChar c then some ⟨LexMode.word [c], toks⟩
  else none

/-- Character denoted by a one-letter escape. -/
def escapeChar (c : Char) : Option Char :=
  if c.toNat = 34 then some c
  else if c.toNat = 92 then some c
  else if c = '/' then some c
  else if c = 'b' then some (Char.ofNat 8)
  else if c = 'f' then some (Char.ofNat 12)
  else if c = 'n' then some (Char.ofNat 10)
  else if c = 'r' then some (Char.ofNat 13)
  else if c = 't' then some (Char.ofNat 9)
  else none

/-- One step of the lexer. -/
def lexStep (st : LexState) (c : Char) : Option LexState :=
  match st.mode with
  | LexMode.top => lexTop st.toks c
  | LexMode.word acc =>
    if isWordChar c then some ⟨LexMode.word (c :: acc), st.toks⟩
    else (closeWord acc).bind fun t => lexTop (t :: st.toks) c
  | LexMode.inStr acc =>
    if c.toNat = 34 then
      some ⟨LexMode.top, Token.str (String.mk (decodeItems none acc.reverse)) :: st.toks⟩
    else if c.toNat = 92 then some ⟨LexMode.afterBackslash acc, st.toks⟩
    else if c.toNat < 32 then none
    else some ⟨LexMode.inStr (StrItem.ch c :: acc), st.toks⟩
  | LexMode.afterBackslash acc =>
    if c = 'u' then some ⟨LexMode.hex acc [], st.toks⟩
    else (escapeChar c).map fun e => ⟨LexMode.inStr (StrItem.ch e :: acc), st.toks⟩
  | LexMode.hex acc digits =>
    (hexVal c).map fun v =>
      match digits with
      | [a, b, d] => ⟨LexMode.inStr (StrItem.esc (((a * 16 + b) * 16 + d) * 16 + v) :: acc), st.toks⟩
      | _ => ⟨LexMode.hex acc (digits ++ [v]), st.toks⟩

/-- Tokens of an input, or `none` when it is not lexically JSON. -/
def lex (cs : List Char) : Option (List Token) :=
  (cs.foldlM lexStep ⟨LexMode.top, []⟩).bind fun st =>
    match st.mode with
    | LexMode.top => some st.toks.reverse
    | LexMode.word acc => (closeWord acc).map fun t => (t :: st.toks).reverse
    | _ => none

/-- An open container; collected items are in reverse order. -/
inductive Frame where
  | arr (items : List JSON)
  | obj (members : List (String × JSON)) (key : Option String)

/-- What the parser may read next. -/
inductive Expect where
  | value
  | valueOrClose
  | keyOrClose
  | key
  | colon
  | sep
  | done

/-- State of the parser. -/
structure ParseState where
  stack : List Frame
  expect : Expect
  result : Option JSON

/-- A value is complete: hand it to the enclosing container. -/
def deliver (v : JSON) (stack : List Frame) : Option ParseState :=
  match stack with
  | [] => some ⟨[], Expect.done, some v⟩
  | Frame.arr items :: rest => some ⟨Frame.arr (v :: items) :: rest, Expect.sep, none⟩
  | Frame.obj ms (some k) :: rest => some ⟨Frame.obj ((k, v) :: ms) none :: rest, Expect.sep, none⟩
  | Frame.obj _ none :: _ => none

/-- The library's limit on the number of arrays and objects open at once
(`maxNestingDepth` of `encoding/json`). -/
def maxNestingDepth : Nat := 10000

/-- An array or object opens: the library's `pushParseState`. The input is
rejected (`exceeded max depth`) when more than `maxNestingDepth` containers
are then open. -/
def pushFrame (fr : Frame) (stack : List Frame) (next : Expect) : Option ParseState :=
  if (fr :: stack).length ≤ maxNestingDepth then some ⟨fr :: stack, next, none⟩ else none

/-- A token where a value starts. -/
def startValue (stack : List Frame) (t : Token) : Option ParseState :=
  match t with
  | Token.lbrace => pushFrame (Frame.obj [] none) stack Expect.keyOrClose
  | Token.lbrack => pushFrame (Frame.arr []) stack Expect.valueOrClose
  | Token.str s => deliver (JSON.str s) stack
  | Token.num l => deliver (JSON.num l) stack
  | Token.litTrue => deliver (JSON.bool true) stack
  | Token.litFalse => deliver (JSON.bool false) stack
  | Token.litNull => deliver JSON.null stack
  | _ => none

/-- A token where an object key is expected. -/
def startKey (stack : List Frame) (t : Token) : Option ParseState :=
  match t, stack with
  | Token.str k, Frame.obj ms none :: rest => some ⟨Frame.obj ms (some k) :: rest, Expect.colon, none⟩
  | _, _ => none

/-- One step of the parser. -/
def parseStep (st : ParseState) (t : Token) : Option ParseState :=
  match st.expect with
  | Expect.value => startValue st.stack t
  | Expect.valueOrClose =>
    match t, st.stack with
    | Token.rbrack, Frame.arr _ :: rest => deliver (JSON.arr []) rest
    | _, _ => startValue st.stack t
  | Expect.keyOrClose =>
    match t, st.stack with
    | Token.rbrace, Frame.obj _ _ :: rest => deliver (JSON.obj []) rest
    | _, _ => startKey st.stack t
  | Expect.key => startKey st.stack t
  | Expect.colon =>
    match t with
    | Token.colon => some ⟨st.stack, Expect.value, none⟩
    | _ => none
  | Expect.sep =>
    match t, st.stack with
    | Token.comma, Frame.arr items :: rest => some ⟨Frame.arr items :: rest, Expect.value, none⟩
    | Token.comma, Frame.obj ms none :: rest => some ⟨Frame.obj ms none :: rest, Expect.key, none⟩
    | Token.rbrack, Frame.arr items :: rest => deliver (JSON.arr items.reverse) rest
    | Token.rbrace, Frame.obj ms none :: rest => deliver (JSON.obj ms.reverse) rest
    | _, _ => none
  | Expect.done => none

/-- The JSON value an input denotes, or `none` when the library's validity
check rejects it: it is not one well-formed JSON value, or it nests arrays
and objects deeper than `maxNestingDepth`. -/
def parseJSON (data : String) : Option JSON :=
  (lex data.data).bind fun toks =>
    (toks.foldlM parseStep ⟨[], Expect.value, none⟩).bind fun st => st.result

/-- Case folding of the decoder when it matches an object key to a field:
ASCII letters ignore case, U+017F folds to S and U+212A folds to K. -/
def foldChar (c : Char) : Char :=
  if 97 ≤ c.toNat ∧ c.toNat ≤ 122 then Char.ofNat (c.toNat - 32)
  else if c.toNat = 0x17F then 'S'
  else if c.toNat = 0x212A then 'K'
  else c

/-- Does the object key select the field with the given `json` tag. -/
def sameField (key tag : String) : Bool :=
  key.data.map foldChar = tag.data.map foldChar

/-- Kind of a JSON value as the decoder names it in a type error. -/
def kindOf : JSON → String
  | JSON.null => "null"
  | JSON.bool _ => "bool"
  | JSON.num _ => "number"
  | JSON.str _ => "string"
  | JSON.arr _ => "array"
  | JSON.obj _ => "object"

/-- Text of a type error of the decoder. -/
def typeError (v : JSON) (goType : String) : String :=
  "json: cannot unmarshal " ++ kindOf v ++ " into Go value of type " ++ goType

/-- Decode into a `string` field holding `cur`. -/
def decodeString (v : JSON) (cur : String) : Except String String :=
  match v with
  | JSON.null => Except.ok cur
  | JSON.str s => Except.ok s
  | _ => Except.error (typeError v "string")

/-- Value of a run of decimal digits. -/
def digitsVal (ds : List Char) : Nat :=
  ds.foldl (fun n c => 10 * n + (c.toNat - 48)) 0

/-- The integer a number literal denotes, when it has no fraction or exponent. -/
def parseInt (lit : List Char) : Option Int :=
  match lit with
  | '-' :: ds => if !ds.isEmpty && ds.all Char.isDigit then some (-(digitsVal ds : Int)) else none
  | ds => if !ds.isEmpty && ds.all Char.isDigit then some (digitsVal ds : Int) else none

/-- Decode into an `int` or `int64` field (64 bits) holding `cur`. -/
def decodeInt (v : JSON) (cur : Int) : Except String Int :=
  match v with
  | JSON.null => Except.ok cur
  | JSON.num lit =>
    match parseInt lit with
    | some n =>
      if -9223372036854775808 ≤ n ∧ n ≤ 9223372036854775807 then Except.ok n
      else Except.error (typeError v "int64")
    | none => Except.error (typeError v "int64")
  | _ => Except.error (typeError v "int64")

/-- Decode one member of the object of a choice message. -/
def decodeMessageField (cur : ChoiceMessage) (kv : String × JSON) : Except String ChoiceMessage :=
  if sameField kv.1 "role" then
    (decodeString kv.2 cur.Role).map fun r => { cur with Role := r }
  else if sameField kv.1 "content" then
    (decodeString kv.2 cur.Content).map fun c => { cur with Content := c }
  else Except.ok cur

/-- Decode into the `Message` field of a choice. -/
def decodeMessage (v : JSON) (cur : ChoiceMessage) : Except String ChoiceMessage :=
  match v with
  | JSON.null => Except.ok cur
  | JSON.obj ms => ms.foldlM decodeMessageField cur
  | _ => Except.error (typeError v "struct")

/-- Decode one member of the object of a choice. -/
def decodeChoiceField (cur : Choice) (kv : String × JSON) : Except String Choice :=
  if sameField kv.1 "index" then
    (decodeInt kv.2 cur.Index).map fun i => { cur with Index := i }
  else if sameField kv.1 "message" then
    (decodeMessage kv.2 cur.Message).map fun m => { cur with Message := m }
  else Except.ok cur

/-- Decode into an element of `Choices`. -/
def decodeChoice (v : JSON) (cur : Choice) : Except String Choice :=
  match v with
  | JSON.null => Except.ok cur
  | JSON.obj ms => ms.foldlM decodeChoiceField cur
  | _ => Except.error (typeError v "struct")

/-- Decode the elements of an array into a slice: element `i` is decoded into
the existing element `i` when there is one, and into a zero value otherwise
(the capacity of the Go slice is not tracked). -/
def decodeElems : List JSON → List Choice → Except String (List Choice)
  | [], _ => Except.ok []
  | x :: xs, cur =>
    match decodeChoice x (cur.headD Choice.zero) with
    | Except.error e => Except.error e
    | Except.ok c =>
      match decodeElems xs cur.tail with
      | Except.error e => Except.error e
      | Except.ok rest => Except.ok (c :: rest)

/-- Decode into the `Choices` field. -/
def decodeChoices (v : JSON) (cur : List Choice) : Except String (List Choice) :=
  match v with
  | JSON.null => Except.ok []
  | JSON.arr xs => decodeElems xs cur
  | _ => Except.error (typeError v "slice")

/-- Decode one member of the top-level object. -/
def decodeResponseField (cur : ChatResponse) (kv : String × JSON) : Except String ChatResponse :=
  if sameField kv.1 "id" then
    (decodeString kv.2 cur.ID).map fun x => { cur with ID := x }
  else if sameField kv.1 "object" then
    (decodeString kv.2 cur.Object).map fun x => { cur with Object := x }
  else if sameField kv.1 "created" then
    (decodeInt kv.2 cur.Created).map fun x => { cur with Created := x }
  else if sameField kv.1 "choices" then
    (decodeChoices kv.2 cur.Choices).map fun x => { cur with Choices := x }
  else Except.ok cur

/-- Decode a JSON value into a `ChatResponse` holding `cur`. -/
def decodeResponse (v : JSON) (cur : ChatResponse) : Except String ChatResponse :=
  match v with
  | JSON.null => Except.ok cur
  | JSON.obj ms => ms.foldlM decodeResponseField cur
  | _ => Except.error (typeError v "main.ChatResponse")

/-- Model of `json.Unmarshal(data, &v)` for `v` a `ChatResponse` holding `cur`:
the new value of `v`, or the text of the error. -/
def jsonUnmarshal (data : String) (cur : ChatResponse) : Except String ChatResponse :=
  match parseJSON data with
  | none => Except.error "json: invalid JSON input"
  | some v => decodeResponse v cur

/-! ## Model of `strings.TrimSpace` -/

/-- White space as `unicode.IsSpace` defines it. -/
def isSpace (c : Char) : Bool :=
  let n := c.toNat
  (9 ≤ n && n ≤ 13) || n = 32 || n = 0x85 || n = 0xA0 || n = 0x1680 ||
    (0x2000 ≤ n && n ≤ 0x200A) || n = 0x2028 || n = 0x2029 || n = 0x202F ||
    n = 0x205F || n = 0x3000

/-- Model of `strings.TrimSpace`: leading and trailing white space removed. -/
def trimSpace (s : String) : String :=
  String.mk ((s.data.dropWhile isSpace).reverse.dropWhile isSpace).reverse

/-! ## The environment and the program state -/

/-- The parts of an `http.Request` the code sets. The header is a list of
key/value pairs with one entry per key. -/
structure HTTPRequest where
  Method : String
  URL : String
  Header : List (String × String)
  Body : String
deriving DecidableEq, Repr

/-- Model of `Header.Set`: the key now has exactly this value. -/
def HTTPRequest.setHeader (r : HTTPRequest) (k v : String) : HTTPRequest :=
  { r with Header := r.Header.filter (fun p => p.1 ≠ k) ++ [(k, v)] }

/-- Model of `Header.Get`: the value of the key, if set. -/
def HTTPRequest.getHeader (r : HTTPRequest) (k : String) : Option String :=
  (r.Header.find? fun p => p.1 = k).map Prod.snd

/-- What `client.Do` hands back when it succeeds: the status code, and what
`io.ReadAll(resp.Body)` will give (the body, or the text of a read error). -/
structure HTTPResponse where
  StatusCode : Int
  Body : Except String String

/-- Everything outside the program that one call of `executor` depends on. -/
structure World where
  /-- Result of `json.Marshal(reqBody)`: bytes and error. -/
  jsonMarshal : ChatRequest → String × Option String
  /-- Error of `http.NewRequest(method, url, body)`, if it rejects the method or URL. -/
  newRequestErr : String → String → Option String
  /-- Result of `client.Do(req)`: a response, or the text of a transport error. -/
  clientDo : HTTPRequest → Except String HTTPResponse
  /-- Result of `r.Render(response)` of the markdown renderer. -/
  render : String → Except String String

/-- Model of `http.NewRequest`: a request with an empty header, or an error. -/
def httpNewRequest (w : World) (method url body : String) : Except String HTTPRequest :=
  match w.newRequestErr method url with
  | some e => Except.error e
  | none => Except.ok ⟨method, url, [], body⟩

/-- Observable effects, in the order the code performs them. -/
inductive Event where
  /-- Plain text written to the terminal (`fmt.Print`, `fmt.Println`). -/
  | print (s : String)
  /-- A line written in red (`color.Red`). -/
  | red (s : String)
  /-- A value handed to `json.Marshal`. -/
  | marshal (req : ChatRequest)
  /-- A request handed to `client.Do`. -/
  | httpDo (req : HTTPRequest)
deriving DecidableEq, Repr

/-- The package variables `config` and `messages`, and the ghost log of effects. -/
structure State where
  config : Config
  messages : List Message
  trace : List Event
deriving DecidableEq, Repr

/-- Append an effect to the log. -/
def State.emit (st : State) (e : Event) : State :=
  { st with trace := st.trace ++ [e] }

/-- Result pair `(string, error)` of `sendMessage`. -/
structure Reply where
  text : String
  err : Option String
deriving DecidableEq, Repr

/-- How a call of `executor` ends: it returns to the prompt loop, or the
process terminates with an exit code (`os.Exit`). -/
inductive Control where
  | returned
  | exited (code : Int)
deriving DecidableEq, Repr

/-! ## The program -/

/-- The transcript `main` installs before starting the prompt (lines 245-251). -/
def initialMessages : List Message :=
  [⟨"system", "You are a helpful, accurate, and friendly AI assistant."⟩]

/-- What `viper` holds of the config file: the error of `ReadInConfig`, the
error of `Unmarshal`, and the value of each key present in the file. -/
structure ConfigFile where
  readErr : Option String
  unmarshalErr : Option String
  get : String → Option String

/-- Model of `viper.Unmarshal(&config)`: a field whose key is present in the
file takes the file's value, a field whose key is absent keeps its value. -/
def viperUnmarshal (f : ConfigFile) (c : Config) : Config :=
  { LLMAPIURL := (f.get "LLM_API_URL").getD c.LLMAPIURL
    LLMAPIKey := (f.get "LLM_API_KEY").getD c.LLMAPIKey
    Model := (f.get "LLM_MODEL").getD c.Model }

/-- The function `loadConfig` (lines 83-106): the returned error and the new state. -/
def loadConfig (f : ConfigFile) (st : State) : Option String × State :=
  match f.readErr with
  | some err => (some ("error reading config file: " ++ err), st)
  | none =>
    let st1 := { st with config := viperUnmarshal f st.config }
    match f.unmarshalErr with
    | some err => (some ("error unmarshaling config: " ++ err), st1)
    | none =>
      if st1.config.LLMAPIURL = "" then (some "LLM_API_URL is required in config", st1)
      else if st1.config.LLMAPIKey = "" then (some "LLM_API_KEY is required in config", st1)
      else if st1.config.Model = "" then (some "LLM_MODEL is required in config", st1)
      else (none, st1)

/-- The function `sendMessage` (lines 108-167): the returned pair and the new state. -/
def sendMessage (w : World) (content : String) (st : State) : Reply × State :=
  let st1 := { st with messages := st.messages ++ [Message.mk "user" content] }
  let reqBody : ChatRequest := ⟨st1.config.Model, st1.messages⟩
  let st2 := st1.emit (Event.marshal reqBody)
  match w.jsonMarshal reqBody with
  | (_, some err) => (Reply.mk "" (some ("error marshaling request: " ++ err)), st2)
  | (jsonBody, none) =>
    match httpNewRequest w "POST" st2.config.LLMAPIURL jsonBody with
    | Except.error err => (Reply.mk "" (some ("error creating request: " ++ err)), st2)
    | Except.ok req0 =>
      let req1 := req0.setHeader "Content-Type" "application/json"
      let req := req1.setHeader "Authorization" ("Bearer " ++ st2.config.LLMAPIKey)
      let st3 := st2.emit (Event.httpDo req)
      match w.clientDo req with
      | Except.error err => (Reply.mk "" (some ("error sending request: " ++ err)), st3)
      | Except.ok resp =>
        match resp.Body with
        | Except.error err => (Reply.mk "" (some ("error reading response: " ++ err)), st3)
        | Except.ok body =>
          if resp.StatusCode ≠ 200 then
            (Reply.mk "" (some ("API error: " ++ body ++ " (" ++ toString resp.StatusCode ++ ")")), st3)
          else
            match jsonUnmarshal body ChatResponse.zero with
            | Except.error err => (Reply.mk "" (some ("error unmarshaling response: " ++ err)), st3)
            | Except.ok chatResp =>
              match chatResp.Choices with
              | [] => (Reply.mk "" (some "no response from API"), st3)
              | first :: _ =>
                let assistantMessage := first.Message
                (Reply.mk assistantMessage.Content none,
                  { st3 with messages := st3.messages ++ [Message.mk "assistant" assistantMessage.Content] })

/-- The function `executor` (lines 169-203): how the call ends and the new state. -/
def executor (w : World) (input : String) (st : State) : Control × State :=
  let input := trimSpace input
  if input = "exit" ∨ input = "quit" then
    (Control.exited 0, st.emit (Event.print "Goodbye!\n"))
  else if input = "" then (Control.returned, st)
  else
    let st1 := st.emit (Event.print "Thinking...")
    let res := sendMessage w input st1
    let st2 := (res.2.emit (Event.print "\r                \r")).emit (Event.print "\x1b[K")
    match res.1.err with
    | some err => (Control.returned, st2.emit (Event.red ("Error: " ++ err)))
    | none =>
      match w.render res.1.text with
      | Except.error err =>
        (Control.returned,
          (st2.emit (Event.red ("Error rendering response: " ++ err))).emit
            (Event.print (res.1.text ++ "\n")))
      | Except.ok out => (Control.returned, st2.emit (Event.print ("\n" ++ out ++ "\n")))

/-- A sequence of `sendMessage` calls, each in its own world: the replies in
call order and the final state. -/
def sendAll : List (World × String) → State → List Reply × State
  | [], st => ([], st)
  | (w, c) :: calls, st =>
    let r := sendMessage w c st
    let rs := sendAll calls r.2
    (r.1 :: rs.1, rs.2)

/-! ## Vocabulary of the statements -/

/-- The request `sendMessage` is expected to hand to `client.Do` for a
serialized body: a POST to the configured URL with the two headers. -/
def expectedRequest (cfg : Config) (jsonBody : String) : HTTPRequest :=
  { Method := "POST"
    URL := cfg.LLMAPIURL
    Header := [("Content-Type", "application/json"), ("Authorization", "Bearer " ++ cfg.LLMAPIKey)]
    Body := jsonBody }

/-- In world `w`, the call `sendMessage(c)` made in state `st` gets an HTTP
answer with this status code and this body: the request is serialized and
created without error, the transport succeeds and the body is read in full. -/
def Answers (w : World) (st : State) (c : String) (status : Int) (body : String) : Prop :=
  ∃ jsonBody,
    w.jsonMarshal ⟨st.config.Model, st.messages ++ [Message.mk "user" c]⟩ = (jsonBody, none) ∧
    w.newRequestErr "POST" st.config.LLMAPIURL = none ∧
    w.clientDo (expectedRequest st.config jsonBody) = Except.ok ⟨status, Except.ok body⟩

/-- The call `sendMessage(c)` made in state `st` fails with the error text
`msg`: it returns the empty string and that error, and the transcript
afterwards is the old one followed by the user message only. -/
def FailsWith (w : World) (c : String) (st : State) (msg : String) : Prop :=
  (sendMessage w c st).1 = Reply.mk "" (some msg) ∧
    (sendMessage w c st).2.messages = st.messages ++ [Message.mk "user" c]

/-- Is the error the one `sendMessage` returns when `json.Unmarshal` fails. -/
def isDeserializationError (err : Option String) : Bool :=
  match err with
  | some m => "error unmarshaling response: ".data.isPrefixOf m.data
  | none => false

/-- Does `json.Unmarshal` return without error. -/
def succeeds {ε α : Type} (r : Except ε α) : Bool :=
  match r with
  | Except.ok _ => true
  | Except.error _ => false

/-- The value may stand where a Go `string` is expected: a string or `null`. -/
def fitsString : JSON → Bool
  | JSON.null => true
  | JSON.str _ => true
  | _ => false

/-- The value may stand where a Go `int` or `int64` is expected: `null`, or a
number written as an integer, without fraction or exponent, within 64 bits. -/
def fitsInt : JSON → Bool
  | JSON.null => true
  | JSON.num lit =>
    match parseInt lit with
    | some n => decide (-9223372036854775808 ≤ n ∧ n ≤ 9223372036854775807)
    | none => false
  | _ => false

/-- A member of a message object fits: a key naming `role` or `content` has
a string or `null`; any other key is free. -/
def memberFitsMessage (kv : String × JSON) : Bool :=
  if sameField kv.1 "role" then fitsString kv.2
  else if sameField kv.1 "content" then fitsString kv.2
  else true

/-- The value may stand for the `message` of a choice: `null`, or an object
whose members fit. -/
def fitsMessage : JSON → Bool
  | JSON.null => true
  | JSON.obj ms => ms.all memberFitsMessage
  | _ => false

/-- A member of a choice object fits: `index` has an integer or `null`,
`message` has a fitting message; any other key is free. -/
def memberFitsChoice (kv : String × JSON) : Bool :=
  if sameField kv.1 "index" then fitsInt kv.2
  else if sameField kv.1 "message" then fitsMessage kv.2
  else true

/-- The value may stand for one choice: `null`, or an object whose members fit. -/
def fitsChoice : JSON → Bool
  | JSON.null => true
  | JSON.obj ms => ms.all memberFitsChoice
  | _ => false

/-- The value may stand for `choices`: `null`, or an array of fitting choices. -/
def fitsChoices : JSON → Bool
  | JSON.null => true
  | JSON.arr xs => xs.all fitsChoice
  | _ => false

/-- A member of the top-level object fits: `id` and `object` have a string or
`null`, `created` an integer or `null`, `choices` a fitting choice list; any
other key is free. -/
def memberFitsResponse (kv : String × JSON) : Bool :=
  if sameField kv.1 "id" then fitsString kv.2
  else if sameField kv.1 "object" then fitsString kv.2
  else if sameField kv.1 "created" then fitsInt kv.2
  else if sameField kv.1 "choices" then fitsChoices kv.2
  else true

/-- The JSON value has no value of the wrong kind for `ChatResponse`: it is
`null`, or an object whose members fit. -/
def fitsResponse : JSON → Bool
  | JSON.null => true
  | JSON.obj ms => ms.all memberFitsResponse
  | _ => false

/-- The user/assistant pairs of successful turns, in call order. -/
def turns : List String → List Reply → List Message
  | c :: cs, r :: rs => Message.mk "user" c :: Message.mk "assistant" r.text :: turns cs rs
  | _, _ => []

/-- A serializer standing in for `json.Marshal` in the simulated world. -/
def simMarshal (req : ChatRequest) : String :=
  "model=" ++ req.Model ++ ";" ++
    String.join (req.Messages.map fun m => m.Role ++ ":" ++ m.Content ++ ";")

/-- A simulated API: every request is answered with the given status code and
body; serialization, request creation and rendering never fail. -/
def simulatedAPI (status : Int) (body : String) : World :=
  { jsonMarshal := fun req => (simMarshal req, none)
    newRequestErr := fun _ _ => none
    clientDo := fun _ => Except.ok ⟨status, Except.ok body⟩
    render := fun s => Except.ok s }

/-- A session as `main` leaves it before the first prompt. -/
def freshSession : State :=
  { config := ⟨"https://api.openai.com/v1/chat/completions", "sk-test", "gpt-4"⟩
    messages := initialMessages
    trace := [] }

/-! ## Lemmas on `sendMessage` -/

/-- The two `Header.Set` calls on a fresh request give the expected request. -/
theorem setHeader_fresh (url key body : String) :
    ((HTTPRequest.mk "POST" url [] body).setHeader "Content-Type" "application/json").setHeader
        "Authorization" ("Bearer " ++ key) =
      expectedRequest ⟨url, key, ""⟩ body := by
  simp [HTTPRequest.setHeader, expectedRequest]

/-- The log after a call whose request reached `client.Do`. -/
def sentTrace (st : State) (c jsonBody : String) : List Event :=
  st.trace ++ [Event.marshal ⟨st.config.Model, st.messages ++ [Message.mk "user" c]⟩] ++
    [Event.httpDo (expectedRequest st.config jsonBody)]

/-- What `sendMessage` does once the HTTP answer is known. -/
theorem sendMessage_of_answer (w : World) (st : State) (c jsonBody : String) (status : Int)
    (body : String)
    (hm : w.jsonMarshal ⟨st.config.Model, st.messages ++ [Message.mk "user" c]⟩ = (jsonBody, none))
    (hn : w.newRequestErr "POST" st.config.LLMAPIURL = none)
    (hd : w.clientDo (expectedRequest st.config jsonBody) = Except.ok ⟨status, Except.ok body⟩) :
    sendMessage w c st =
      if status ≠ 200 then
        (Reply.mk "" (some ("API error: " ++ body ++ " (" ++ toString status ++ ")")),
          ⟨st.config, st.messages ++ [Message.mk "user" c], sentTrace st c jsonBody⟩)
      else
        match jsonUnmarshal body ChatResponse.zero with
        | Except.error err =>
          (Reply.mk "" (some ("error unmarshaling response: " ++ err)),
            ⟨st.config, st.messages ++ [Message.mk "user" c], sentTrace st c jsonBody⟩)
        | Except.ok chatResp =>
          match chatResp.Choices with
          | [] =>
            (Reply.mk "" (some "no response from API"),
              ⟨st.config, st.messages ++ [Message.mk "user" c], sentTrace st c jsonBody⟩)
          | first :: _ =>
            (Reply.mk first.Message.Content none,
              ⟨st.config,
                (st.messages ++ [Message.mk "user" c]) ++
                  [Message.mk "assistant" first.Message.Content],
                sentTrace st c jsonBody⟩) := by
  have hreq := setHeader_fresh st.config.LLMAPIURL st.config.LLMAPIKey jsonBody
  simp only [expectedRequest] at hreq hd
  simp only [sendMessage, State.emit, httpNewRequest, hm, hn, hreq, hd, sentTrace, expectedRequest]

/-- Every call of `sendMessage` ends in one of two ways: without error, the
transcript extended by the user message and the returned reply; or with an
error, an empty string returned and the transcript extended by the user
message only. -/
theorem sendMessage_cases (w : World) (c : String) (st : State) :
    ((sendMessage w c st).1.err = none ∧
        (sendMessage w c st).2.messages =
          st.messages ++ [Message.mk "user" c, Message.mk "assistant" (sendMessage w c st).1.text]) ∨
      ((sendMessage w c st).1.err ≠ none ∧ (sendMessage w c st).1.text = "" ∧
        (sendMessage w c st).2.messages = st.messages ++ [Message.mk "user" c]) := by
  unfold sendMessage
  dsimp only
  repeat' split
  all_goals simp [State.emit]

/-- The wrapper text of a failed `json.Unmarshal` is recognized. -/
theorem isDeserializationError_wrap (e : String) :
    isDeserializationError (some ("error unmarshaling response: " ++ e)) = true := by
  simp [isDeserializationError, String.data_append]

/-! ## Lemmas on the decoder -/

/-- A successful result has a value. -/
theorem succeeds_iff {ε α : Type} (r : Except ε α) : succeeds r = true ↔ ∃ a, r = Except.ok a := by
  cases r with
  | error e => simp [succeeds]
  | ok a => simp [succeeds]

/-- Mapping the value does not change success. -/
theorem succeeds_map {ε α β : Type} (g : α → β) (r : Except ε α) :
    succeeds (r.map g) = succeeds r := by
  cases r <;> rfl

/-- A fold of a decoding step succeeds exactly when every step does, if the
success of a step does not depend on the value accumulated. -/
theorem succeeds_foldlM {ε α β : Type} (f : β → α → Except ε β) (P : α → Bool)
    (hf : ∀ b a, succeeds (f b a) = P a) (l : List α) (b : β) :
    succeeds (l.foldlM f b) = l.all P := by
  induction l generalizing b with
  | nil => rfl
  | cons a l ih =>
    rw [List.foldlM_cons, List.all_cons, ← hf b a]
    cases h : f b a with
    | error e => rfl
    | ok b2 =>
      show succeeds (List.foldlM f b2 l) = (succeeds (Except.ok b2) && l.all P)
      rw [ih b2]
      rfl

/-- Decoding into a string field succeeds exactly on a fitting value. -/
theorem succeeds_decodeString (v : JSON) (cur : String) :
    succeeds (decodeString v cur) = fitsString v := by
  cases v <;> rfl

/-- Decoding into an integer field succeeds exactly on a fitting value. -/
theorem succeeds_decodeInt (v : JSON) (cur : Int) :
    succeeds (decodeInt v cur) = fitsInt v := by
  cases v with
  | num lit =>
    simp only [decodeInt, fitsInt]
    cases parseInt lit with
    | none => rfl
    | some n =>
      by_cases h : -9223372036854775808 ≤ n ∧ n ≤ 9223372036854775807
      · simp [h, succeeds]
      · simp [h, succeeds]
  | _ => rfl

/-- Decoding a member of a message succeeds exactly when the member fits. -/
theorem succeeds_decodeMessageField (cur : ChoiceMessage) (kv : String × JSON) :
    succeeds (decodeMessageField cur kv) = memberFitsMessage kv := by
  unfold decodeMessageField memberFitsMessage
  split_ifs
  · rw [succeeds_map, succeeds_decodeString]
  · rw [succeeds_map, succeeds_decodeString]
  · rfl

/-- Decoding a message succeeds exactly on a fitting value. -/
theorem succeeds_decodeMessage (v : JSON) (cur : ChoiceMessage) :
    succeeds (decodeMessage v cur) = fitsMessage v := by
  cases v with
  | obj ms => exact succeeds_foldlM _ _ succeeds_decodeMessageField ms cur
  | _ => rfl

/-- Decoding a member of a choice succeeds exactly when the member fits. -/
theorem succeeds_decodeChoiceField (cur : Choice) (kv : String × JSON) :
    succeeds (decodeChoiceField cur kv) = memberFitsChoice kv := by
  unfold decodeChoiceField memberFitsChoice
  split_ifs
  · rw [succeeds_map, succeeds_decodeInt]
  · rw [succeeds_map, succeeds_decodeMessage]
  · rfl

/-- Decoding a choice succeeds exactly on a fitting value. -/
theorem succeeds_decodeChoice (v : JSON) (cur : Choice) :
    succeeds (decodeChoice v cur) = fitsChoice v := by
  cases v with
  | obj ms => exact succeeds_foldlM _ _ succeeds_decodeChoiceField ms cur
  | _ => rfl

/-- Decoding the elements of an array succeeds exactly when each fits. -/
theorem succeeds_decodeElems (xs : List JSON) (cur : List Choice) :
    succeeds (decodeElems xs cur) = xs.all fitsChoice := by
  induction xs generalizing cur with
  | nil => rfl
  | cons x xs ih =>
    rw [List.all_cons, ← succeeds_decodeChoice x (cur.headD Choice.zero), ← ih cur.tail]
    cases hx : decodeChoice x (cur.headD Choice.zero) with
    | error e =>
      rw [decodeElems, hx]
      rfl
    | ok c =>
      cases hr : decodeElems xs cur.tail with
      | error e =>
        rw [decodeElems, hx, hr]
        rfl
      | ok rest =>
        rw [decodeElems, hx, hr]
        rfl

/-- Decoding the choice list succeeds exactly on a fitting value. -/
theorem succeeds_decodeChoices (v : JSON) (cur : List Choice) :
    succeeds (decodeChoices v cur) = fitsChoices v := by
  cases v with
  | arr xs => exact succeeds_decodeElems xs cur
  | _ => rfl

/-- Decoding a top-level member succeeds exactly when the member fits. -/
theorem succeeds_decodeResponseField (cur : ChatResponse) (kv : String × JSON) :
    succeeds (decodeResponseField cur kv) = memberFitsResponse kv := by
  unfold decodeResponseField memberFitsResponse
  split_ifs
  · rw [succeeds_map, succeeds_decodeString]
  · rw [succeeds_map, succeeds_decodeString]
  · rw [succeeds_map, succeeds_decodeInt]
  · rw [succeeds_map, succeeds_decodeChoices]
  · rfl

/-- Decoding a response succeeds exactly on a fitting value. -/
theorem succeeds_decodeResponse (v : JSON) (cur : ChatResponse) :
    succeeds (decodeResponse v cur) = fitsResponse v := by
  cases v with
  | obj ms => exact succeeds_foldlM _ _ succeeds_decodeResponseField ms cur
  | _ => rfl

/-- What `json.Unmarshal` rejects: input that is not a well-formed JSON value
within the nesting limit, and a value that does not fit `ChatResponse`. -/
theorem succeeds_jsonUnmarshal (body : String) (cur : ChatResponse) :
    succeeds (jsonUnmarshal body cur) =
      match parseJSON body with
      | none => false
      | some v => fitsResponse v := by
  unfold jsonUnmarshal
  cases parseJSON body with
  | none => rfl
  | some v => exact succeeds_decodeResponse v cur

/-- A member whose key does not name `choices` leaves the choice list as it is. -/
theorem decodeResponseField_choices (cur r : ChatResponse) (kv : String × JSON)
    (hk : sameField kv.1 "choices" = false) (h : decodeResponseField cur kv = Except.ok r) :
    r.Choices = cur.Choices := by
  unfold decodeResponseField at h
  split_ifs at h with h1 h2 h3 h4
  · cases hd : decodeString kv.2 cur.ID with
    | error e => rw [hd] at h; cases h
    | ok x => rw [hd] at h; cases h; rfl
  · cases hd : decodeString kv.2 cur.Object with
    | error e => rw [hd] at h; cases h
    | ok x => rw [hd] at h; cases h; rfl
  · cases hd : decodeInt kv.2 cur.Created with
    | error e => rw [hd] at h; cases h
    | ok x => rw [hd] at h; cases h; rfl
  · rw [hk] at h4
    cases h4
  · cases h
    rfl

/-- An object without a key naming `choices` leaves the choice list as it is. -/
theorem foldlM_decodeResponseField_choices (ms : List (String × JSON)) (cur r : ChatResponse)
    (hk : ∀ kv ∈ ms, sameField kv.1 "choices" = false)
    (h : ms.foldlM decodeResponseField cur = Except.ok r) :
    r.Choices = cur.Choices := by
  induction ms generalizing cur with
  | nil =>
    cases h
    rfl
  | cons kv ms ih =>
    rw [List.foldlM_cons] at h
    cases hd : decodeResponseField cur kv with
    | error e => rw [hd] at h; cases h
    | ok c2 =>
      rw [hd] at h
      have h1 := decodeResponseField_choices cur c2 kv (hk kv (List.mem_cons_self _ _)) hd
      have h2 := ih c2 (fun kv2 hkv2 => hk kv2 (List.mem_cons_of_mem _ hkv2)) h
      rw [h2, h1]

/-- Opening one more array or object when `maxNestingDepth` are open is
rejected. -/
theorem startValue_max_depth (stack : List Frame) (h : stack.length = maxNestingDepth) :
    startValue stack Token.lbrack = none ∧ startValue stack Token.lbrace = none := by
  simp [startValue, pushFrame, h]

/-- A body of 10001 nested arrays: `[[ ... ]]`. -/
def deepBody : String :=
  String.mk (List.replicate 10001 '[' ++ List.replicate 10001 ']')

/-- Lexing a run of opening brackets. -/
theorem lex_lbracks (n : Nat) (toks : List Token) :
    (List.replicate n '[').foldlM lexStep ⟨LexMode.top, toks⟩ =
      some ⟨LexMode.top, List.replicate n Token.lbrack ++ toks⟩ := by
  induction n generalizing toks with
  | zero => rfl
  | succ n ih =>
    have hstep : lexStep ⟨LexMode.top, toks⟩ '[' = some ⟨LexMode.top, Token.lbrack :: toks⟩ :=
      rfl
    rw [List.replicate_succ, List.foldlM_cons, hstep]
    show (List.replicate n '[').foldlM lexStep ⟨LexMode.top, Token.lbrack :: toks⟩ = _
    rw [ih, List.replicate_succ', List.append_assoc]
    rfl

/-- Lexing a run of closing brackets. -/
theorem lex_rbracks (n : Nat) (toks : List Token) :
    (List.replicate n ']').foldlM lexStep ⟨LexMode.top, toks⟩ =
      some ⟨LexMode.top, List.replicate n Token.rbrack ++ toks⟩ := by
  induction n generalizing toks with
  | zero => rfl
  | succ n ih =>
    have hstep : lexStep ⟨LexMode.top, toks⟩ ']' = some ⟨LexMode.top, Token.rbrack :: toks⟩ :=
      rfl
    rw [List.replicate_succ, List.foldlM_cons, hstep]
    show (List.replicate n ']').foldlM lexStep ⟨LexMode.top, Token.rbrack :: toks⟩ = _
    rw [ih, List.replicate_succ', List.append_assoc]
    rfl

/-- With `j` arrays open, opening `m` more is rejected once the total
exceeds `maxNestingDepth`, whatever follows. -/
theorem parse_lbracks_overflow (m j : Nat) (rest : List Token) (e : Expect)
    (he : e = Expect.value ∨ e = Expect.valueOrClose)
    (hj : j ≤ maxNestingDepth) (hm : maxNestingDepth < j + m) :
    (List.replicate m Token.lbrack ++ rest).foldlM parseStep
      ⟨List.replicate j (Frame.arr []), e, none⟩ = none := by
  induction m generalizing j e with
  | zero => omega
  | succ m ih =>
    rw [List.replicate_succ, List.cons_append, List.foldlM_cons]
    have hstep : parseStep ⟨List.replicate j (Frame.arr []), e, none⟩ Token.lbrack =
        pushFrame (Frame.arr []) (List.replicate j (Frame.arr [])) Expect.valueOrClose := by
      rcases he with he | he <;> subst he <;> rfl
    rw [hstep]
    by_cases hlt : j < maxNestingDepth
    · have hpush : pushFrame (Frame.arr []) (List.replicate j (Frame.arr []))
          Expect.valueOrClose =
          some ⟨List.replicate (j + 1) (Frame.arr []), Expect.valueOrClose, none⟩ := by
        simp only [pushFrame, List.length_cons, List.length_replicate, List.replicate_succ]
        rw [if_pos (by omega)]
      rw [hpush]
      exact ih (j + 1) Expect.valueOrClose (Or.inr rfl) (by omega) (by omega)
    · have hpush : pushFrame (Frame.arr []) (List.replicate j (Frame.arr []))
          Expect.valueOrClose = none := by
        simp only [pushFrame, List.length_cons, List.length_replicate]
        rw [if_neg (by omega)]
      rw [hpush]
      rfl

/-- The validity check rejects arrays nested deeper than `maxNestingDepth`. -/
theorem parseJSON_nested (n : Nat) (h : maxNestingDepth < n) :
    parseJSON (String.mk (List.replicate n '[' ++ List.replicate n ']')) = none := by
  have hlex : lex (List.replicate n '[' ++ List.replicate n ']') =
      some (List.replicate n Token.lbrack ++ List.replicate n Token.rbrack) := by
    simp only [lex, List.foldlM_append, lex_lbracks, Option.bind_eq_bind, Option.some_bind,
      lex_rbracks, List.append_nil, List.reverse_append, List.reverse_replicate]
  have hparse := parse_lbracks_overflow n 0 (List.replicate n Token.rbrack)
    Expect.value (Or.inl rfl) (Nat.zero_le _) (by omega)
  simp only [parseJSON, hlex, Option.some_bind]
  rw [show (⟨[], Expect.value, none⟩ : ParseState) =
    ⟨List.replicate 0 (Frame.arr []), Expect.value, none⟩ from rfl, hparse]
  rfl

/-- The validity check rejects the body of 10001 nested arrays. -/
theorem parseJSON_deepBody : parseJSON deepBody = none :=
  parseJSON_nested 10001 (by decide)

/-! ## Lemmas on sequences of turns -/

/-- Length of the pairs of `n` turns. -/
theorem turns_length (cs : List String) (rs : List Reply) (h : rs.length = cs.length) :
    (turns cs rs).length = 2 * cs.length := by
  induction cs generalizing rs with
  | nil => cases rs <;> simp [turns]
  | cons c cs ih =>
    cases rs with
    | nil => simp at h
    | cons r rs =>
      have h2 : rs.length = cs.length := by simpa using h
      simp only [turns, List.length_cons, ih rs h2]
      omega

/-- Position `2 * i` of the pairs holds the user message of turn `i`, and
position `2 * i + 1` the assistant message with the reply of turn `i`. -/
theorem turns_getElem (cs : List String) (rs : List Reply) (i : Nat) (c : String) (r : Reply)
    (hc : cs[i]? = some c) (hr : rs[i]? = some r) :
    (turns cs rs)[2 * i]? = some (Message.mk "user" c) ∧
      (turns cs rs)[2 * i + 1]? = some (Message.mk "assistant" r.text) := by
  induction cs generalizing rs i with
  | nil => simp at hc
  | cons c0 cs ih =>
    cases rs with
    | nil => simp at hr
    | cons r0 rs =>
      cases i with
      | zero =>
        simp only [List.getElem?_cons_zero, Option.some.injEq] at hc hr
        subst hc
        subst hr
        simp [turns]
      | succ j =>
        simp only [List.getElem?_cons_succ] at hc hr
        obtain ⟨h1, h2⟩ := ih rs j hc hr
        have e1 : 2 * (j + 1) = (2 * j + 1) + 1 := by omega
        rw [e1]
        simp only [turns, List.getElem?_cons_succ]
        exact ⟨h1, h2⟩

/-- A sequence of calls that all succeed gives one reply per call and
appends the pairs of its turns to the transcript. -/
theorem sendAll_success (calls : List (World × String)) (st : State)
    (hok : ∀ r ∈ (sendAll calls st).1, r.err = none) :
    (sendAll calls st).1.length = calls.length ∧
      (sendAll calls st).2.messages =
        st.messages ++ turns (calls.map Prod.snd) (sendAll calls st).1 := by
  induction calls generalizing st with
  | nil => simp [sendAll, turns]
  | cons wc calls ih =>
    obtain ⟨w, c⟩ := wc
    simp only [sendAll, List.mem_cons, forall_eq_or_imp] at hok
    obtain ⟨h1, h2⟩ := hok
    obtain ⟨ihl, ihm⟩ := ih (sendMessage w c st).2 h2
    rcases sendMessage_cases w c st with ⟨_, hm⟩ | ⟨hne, _, _⟩
    · simp only [sendAll, List.length_cons, ihl, List.map_cons, turns, ihm, hm, true_and]
      simp
    · exact absurd h1 hne

/-- The decoder model on sample bodies: a full response; keys in another
case and unknown keys; `null` at top level; a value of the wrong kind; input
that is not JSON. -/
theorem jsonUnmarshal_samples :
    jsonUnmarshal
        "\x7b\"id\":\"c1\",\"object\":\"chat.completion\",\"created\":17,\"choices\":[\x7b\"index\":0,\"message\":\x7b\"role\":\"assistant\",\"content\":\"a\\nb\"\x7d\x7d]\x7d"
        ChatResponse.zero =
      Except.ok ⟨"c1", "chat.completion", 17, [⟨0, ⟨"assistant", "a\nb"⟩⟩]⟩ ∧
    jsonUnmarshal " \x7b\"Choices\":[\x7b\"MESSAGE\":\x7b\"Content\":\"x\"\x7d,\"extra\":[1,2.5e3,true,null]\x7d]\x7d "
        ChatResponse.zero =
      Except.ok ⟨"", "", 0, [⟨0, ⟨"", "x"⟩⟩]⟩ ∧
    jsonUnmarshal "null" ChatResponse.zero = Except.ok ChatResponse.zero ∧
    jsonUnmarshal "\x7b\"choices\":\"none\"\x7d" ChatResponse.zero =
      Except.error "json: cannot unmarshal string into Go value of type slice" ∧
    jsonUnmarshal "[]" ChatResponse.zero =
      Except.error "json: cannot unmarshal array into Go value of type main.ChatResponse" ∧
    jsonUnmarshal "\x7b\"choices\":[" ChatResponse.zero =
      Except.error "json: invalid JSON input" ∧
    jsonUnmarshal "<html>Bad Gateway</html>" ChatResponse.zero =
      Except.error "json: invalid JSON input" :=
  ⟨rfl, rfl, rfl, rfl, rfl, rfl, rfl⟩

/-! ## The claims -/

/-- C1. When the API answers HTTP 200 with a body that decodes to a choice
list with at least one element, `sendMessage(c)` returns the content of the
first choice with no error, and the transcript becomes the old transcript
followed by the user message and an assistant message with that content,
whatever role the response carries and whatever choices follow. -/
theorem sendMessage_success (w : World) (st : State) (c body : String) (chatResp : ChatResponse)
    (first : Choice) (rest : List Choice)
    (ha : Answers w st c 200 body)
    (hu : jsonUnmarshal body ChatResponse.zero = Except.ok chatResp)
    (hc : chatResp.Choices = first :: rest) :
    (sendMessage w c st).1 = Reply.mk first.Message.Content none ∧
      (sendMessage w c st).2.messages =
        st.messages ++
          [Message.mk "user" c, Message.mk "assistant" first.Message.Content] := by
  obtain ⟨jsonBody, hm, hn, hd⟩ := ha
  rw [sendMessage_of_answer w st c jsonBody 200 body hm hn hd]
  simp [hu, hc]

/-- C1, the example of the specification: body
`{"choices":[{"message":{"role":"assistant","content":"Hello!"}}]}` and
user text `Hi`. -/
theorem sendMessage_success_witness :
    (sendMessage
        (simulatedAPI 200
          "\x7b\"choices\":[\x7b\"message\":\x7b\"role\":\"assistant\",\"content\":\"Hello!\"\x7d\x7d]\x7d")
        "Hi" freshSession).1 = Reply.mk "Hello!" none ∧
      (sendMessage
        (simulatedAPI 200
          "\x7b\"choices\":[\x7b\"message\":\x7b\"role\":\"assistant\",\"content\":\"Hello!\"\x7d\x7d]\x7d")
        "Hi" freshSession).2.messages =
        initialMessages ++ [Message.mk "user" "Hi", Message.mk "assistant" "Hello!"] :=
  sendMessage_success _ freshSession "Hi" _ ⟨"", "", 0, [⟨0, ⟨"assistant", "Hello!"⟩⟩]⟩
    ⟨0, ⟨"assistant", "Hello!"⟩⟩ [] ⟨_, rfl, rfl, rfl⟩ rfl rfl

/-- C2. When the API answers with a status code other than 200 and body `b`,
whatever `b` is, `sendMessage(c)` fails with the error
`API error: <b> (<status>)`, returns the empty string, and leaves the
transcript equal to the old one followed by the user message only. -/
theorem sendMessage_api_error (w : World) (st : State) (c b : String) (s : Int)
    (ha : Answers w st c s b) (hs : s ≠ 200) :
    (sendMessage w c st).1 =
        Reply.mk "" (some ("API error: " ++ b ++ " (" ++ toString s ++ ")")) ∧
      (sendMessage w c st).2.messages = st.messages ++ [Message.mk "user" c] := by
  obtain ⟨jsonBody, hm, hn, hd⟩ := ha
  rw [sendMessage_of_answer w st c jsonBody s b hm hn hd]
  simp [hs]

/-- C2, the example of the specification: status 500, body `server error`,
user text `Hi`. -/
theorem sendMessage_api_error_witness :
    (sendMessage (simulatedAPI 500 "server error") "Hi" freshSession).1 =
        Reply.mk "" (some "API error: server error (500)") ∧
      (sendMessage (simulatedAPI 500 "server error") "Hi" freshSession).2.messages =
        initialMessages ++ [Message.mk "user" "Hi"] :=
  sendMessage_api_error (simulatedAPI 500 "server error") freshSession "Hi" "server error" 500
    ⟨_, rfl, rfl, rfl⟩ (by decide)

/-- C3. When the API answers HTTP 200 with a body that decodes to an empty
choice list, `sendMessage(c)` fails with `no response from API`, returns the
empty string, and appends no assistant message. -/
theorem sendMessage_empty_choices (w : World) (st : State) (c body : String)
    (chatResp : ChatResponse)
    (ha : Answers w st c 200 body)
    (hu : jsonUnmarshal body ChatResponse.zero = Except.ok chatResp)
    (hc : chatResp.Choices = []) :
    (sendMessage w c st).1 = Reply.mk "" (some "no response from API") ∧
      (sendMessage w c st).2.messages = st.messages ++ [Message.mk "user" c] := by
  obtain ⟨jsonBody, hm, hn, hd⟩ := ha
  rw [sendMessage_of_answer w st c jsonBody 200 body hm hn hd]
  simp [hu, hc]

/-- C3, the example of the specification: body `{"choices":[]}`. -/
theorem sendMessage_empty_choices_witness :
    (sendMessage (simulatedAPI 200 "\x7b\"choices\":[]\x7d") "Hi" freshSession).1 =
        Reply.mk "" (some "no response from API") ∧
      (sendMessage (simulatedAPI 200 "\x7b\"choices\":[]\x7d") "Hi" freshSession).2.messages =
        initialMessages ++ [Message.mk "user" "Hi"] :=
  sendMessage_empty_choices _ freshSession "Hi" _ ChatResponse.zero ⟨_, rfl, rfl, rfl⟩ rfl rfl

/-- C7, as stated, fails: a well-formed JSON object with no `choices` key,
here `{}` and `{"error":"x"}`, answered with HTTP 200, is not a
deserialization error; `sendMessage` fails with `no response from API`. -/
theorem sendMessage_object_without_choices :
    (sendMessage (simulatedAPI 200 "\x7b\x7d") "Hi" freshSession).1 =
        Reply.mk "" (some "no response from API") ∧
      isDeserializationError
        (sendMessage (simulatedAPI 200 "\x7b\x7d") "Hi" freshSession).1.err = false ∧
      (sendMessage (simulatedAPI 200 "\x7b\"error\":\"x\"\x7d") "Hi" freshSession).1 =
        Reply.mk "" (some "no response from API") ∧
      isDeserializationError
        (sendMessage (simulatedAPI 200 "\x7b\"error\":\"x\"\x7d") "Hi" freshSession).1.err =
          false := by
  decide

/-- C7, amended. For an HTTP 200 answer with body `b`, `sendMessage` fails
with the deserialization error (`error unmarshaling response: ...`) exactly
when `b` is not one well-formed JSON value nested at most 10000 deep, or its
value does not fit `ChatResponse`: it is an array, string, number or boolean
at top level, or a key that names a field (ignoring case) carries a value
of the wrong kind.  It then returns the empty string and appends no
assistant message.  A body that is `null`, or a fitting object without a key
naming `choices`, is not rejected: `sendMessage` fails with
`no response from API`. -/
theorem sendMessage_deserialization_error (w : World) (st : State) (c body : String)
    (ha : Answers w st c 200 body) :
    (isDeserializationError (sendMessage w c st).1.err = true ↔
        (parseJSON body = none ∨ ∃ v, parseJSON body = some v ∧ fitsResponse v = false)) ∧
      (isDeserializationError (sendMessage w c st).1.err = true →
        (sendMessage w c st).1.text = "" ∧
          (sendMessage w c st).2.messages = st.messages ++ [Message.mk "user" c]) ∧
      (parseJSON body = some JSON.null → FailsWith w c st "no response from API") ∧
      (∀ ms, parseJSON body = some (JSON.obj ms) → fitsResponse (JSON.obj ms) = true →
        (∀ kv ∈ ms, sameField kv.1 "choices" = false) →
        FailsWith w c st "no response from API") := by
  obtain ⟨jsonBody, hm, hn, hd⟩ := ha
  have hsend := sendMessage_of_answer w st c jsonBody 200 body hm hn hd
  have hs := succeeds_jsonUnmarshal body ChatResponse.zero
  have hz : (ChatResponse.zero).Choices = [] := rfl
  refine ⟨?_, ?_, ?_, ?_⟩
  · rw [hsend]
    cases hu : jsonUnmarshal body ChatResponse.zero with
    | error e =>
      rw [hu] at hs
      simp only [ne_eq, not_true_eq_false, if_false, isDeserializationError_wrap, true_iff]
      cases hp : parseJSON body with
      | none => exact Or.inl rfl
      | some v =>
        rw [hp] at hs
        exact Or.inr ⟨v, rfl, hs.symm⟩
    | ok chatResp =>
      rw [hu] at hs
      have hno : ¬(parseJSON body = none ∨
          ∃ v, parseJSON body = some v ∧ fitsResponse v = false) := by
        rintro (hp | ⟨v, hp, hv⟩)
        · rw [hp] at hs
          cases hs
        · have hs2 : succeeds (Except.ok chatResp : Except String ChatResponse) =
              fitsResponse v := by
            rw [hs, hp]
          rw [hv] at hs2
          cases hs2
      cases hc : chatResp.Choices with
      | nil =>
        simp only [ne_eq, not_true_eq_false, if_false, hc]
        constructor
        · intro h
          exact absurd h (by decide)
        · intro h
          exact absurd h hno
      | cons first rest =>
        simp only [ne_eq, not_true_eq_false, if_false, hc]
        constructor
        · intro h
          exact absurd h (by decide)
        · intro h
          exact absurd h hno
  · intro h
    rcases sendMessage_cases w c st with ⟨h1, _⟩ | ⟨_, h2, h3⟩
    · rw [h1] at h
      exact absurd h (by decide)
    · exact ⟨h2, h3⟩
  · intro hp
    have hu : jsonUnmarshal body ChatResponse.zero = Except.ok ChatResponse.zero := by
      simp only [jsonUnmarshal, hp, decodeResponse]
    unfold FailsWith
    rw [hsend]
    simp [hu, hz]
  · intro ms hp hfit hkeys
    have hs2 : succeeds (jsonUnmarshal body ChatResponse.zero) = true := by
      rw [hs, hp]
      exact hfit
    obtain ⟨r, hr⟩ := (succeeds_iff _).mp hs2
    have hfold : ms.foldlM decodeResponseField ChatResponse.zero = Except.ok r := by
      simpa only [jsonUnmarshal, hp, decodeResponse] using hr
    have hc : r.Choices = [] :=
      (foldlM_decodeResponseField_choices ms ChatResponse.zero r hkeys hfold).trans hz
    unfold FailsWith
    rw [hsend]
    simp [hr, hc]

/-- C7 amended, examples: the body `server error` is not JSON and is a
deserialization error; the body `[]` is JSON of the wrong kind and is one
too, and so is the body of 10001 nested arrays; the body
`{"id":"x","usage":{}}` fits and has no `choices`. -/
theorem sendMessage_deserialization_error_witness :
    (isDeserializationError
        (sendMessage (simulatedAPI 200 "server error") "Hi" freshSession).1.err = true ∧
      (sendMessage (simulatedAPI 200 "server error") "Hi" freshSession).2.messages =
        initialMessages ++ [Message.mk "user" "Hi"]) ∧
      isDeserializationError
        (sendMessage (simulatedAPI 200 "[]") "Hi" freshSession).1.err = true ∧
      isDeserializationError
        (sendMessage (simulatedAPI 200 deepBody) "Hi" freshSession).1.err = true ∧
      FailsWith (simulatedAPI 200 "\x7b\"id\":\"x\",\"usage\":\x7b\x7d\x7d") "Hi" freshSession
        "no response from API" :=
  have h1 := sendMessage_deserialization_error (simulatedAPI 200 "server error") freshSession
    "Hi" "server error" ⟨_, rfl, rfl, rfl⟩
  have h2 := sendMessage_deserialization_error (simulatedAPI 200 "[]") freshSession
    "Hi" "[]" ⟨_, rfl, rfl, rfl⟩
  have h3 := sendMessage_deserialization_error
    (simulatedAPI 200 "\x7b\"id\":\"x\",\"usage\":\x7b\x7d\x7d") freshSession
    "Hi" "\x7b\"id\":\"x\",\"usage\":\x7b\x7d\x7d" ⟨_, rfl, rfl, rfl⟩
  have h4 := sendMessage_deserialization_error (simulatedAPI 200 deepBody) freshSession
    "Hi" deepBody ⟨_, rfl, rfl, rfl⟩
  ⟨⟨h1.1.mpr (Or.inl rfl), (h1.2.1 (h1.1.mpr (Or.inl rfl))).2⟩,
    h2.1.mpr (Or.inr ⟨JSON.arr [], rfl, rfl⟩),
    h4.1.mpr (Or.inl parseJSON_deepBody),
    h3.2.2.2 [("id", JSON.str "x"), ("usage", JSON.obj [])] rfl rfl (by decide)⟩

/-- C8. Each failure `sendMessage(c)` can meet makes it fail with the
matching error, return the empty string and leave the transcript equal to
the old one followed by the user message: a `json.Marshal` error, an
`http.NewRequest` error, a transport error of `client.Do`, a read error of
the body, a status code other than 200, a body `json.Unmarshal` rejects, an
empty choice list.  Whenever an error is returned the transcript is the old
one followed by the user message.  In every case the first effect of the
call is to serialize a transcript that already ends with the user message,
the old transcript is a leading part of the new one, and the transcript does
not shrink. -/
theorem sendMessage_failure_transcript (w : World) (c : String) (st : State) :
    (∀ jsonBody e,
        w.jsonMarshal ⟨st.config.Model, st.messages ++ [Message.mk "user" c]⟩ =
          (jsonBody, some e) →
        FailsWith w c st ("error marshaling request: " ++ e)) ∧
      (∀ jsonBody e,
        w.jsonMarshal ⟨st.config.Model, st.messages ++ [Message.mk "user" c]⟩ =
          (jsonBody, none) →
        w.newRequestErr "POST" st.config.LLMAPIURL = some e →
        FailsWith w c st ("error creating request: " ++ e)) ∧
      (∀ jsonBody e,
        w.jsonMarshal ⟨st.config.Model, st.messages ++ [Message.mk "user" c]⟩ =
          (jsonBody, none) →
        w.newRequestErr "POST" st.config.LLMAPIURL = none →
        w.clientDo (expectedRequest st.config jsonBody) = Except.error e →
        FailsWith w c st ("error sending request: " ++ e)) ∧
      (∀ jsonBody status e,
        w.jsonMarshal ⟨st.config.Model, st.messages ++ [Message.mk "user" c]⟩ =
          (jsonBody, none) →
        w.newRequestErr "POST" st.config.LLMAPIURL = none →
        w.clientDo (expectedRequest st.config jsonBody) =
          Except.ok ⟨status, Except.error e⟩ →
        FailsWith w c st ("error reading response: " ++ e)) ∧
      (∀ status body, Answers w st c status body → status ≠ 200 →
        FailsWith w c st ("API error: " ++ body ++ " (" ++ toString status ++ ")")) ∧
      (∀ body e, Answers w st c 200 body →
        jsonUnmarshal body ChatResponse.zero = Except.error e →
        FailsWith w c st ("error unmarshaling response: " ++ e)) ∧
      (∀ body chatResp, Answers w st c 200 body →
        jsonUnmarshal body ChatResponse.zero = Except.ok chatResp → chatResp.Choices = [] →
        FailsWith w c st "no response from API") ∧
      ((sendMessage w c st).1.err ≠ none →
        (sendMessage w c st).2.messages = st.messages ++ [Message.mk "user" c]) ∧
      (∃ later, (sendMessage w c st).2.trace =
        st.trace ++
          Event.marshal ⟨st.config.Model, st.messages ++ [Message.mk "user" c]⟩ :: later) ∧
      st.messages <+: (sendMessage w c st).2.messages ∧
      st.messages.length < (sendMessage w c st).2.messages.length := by
  have hreq : ∀ jsonBody,
      ((HTTPRequest.mk "POST" st.config.LLMAPIURL [] jsonBody).setHeader "Content-Type"
          "application/json").setHeader "Authorization" ("Bearer " ++ st.config.LLMAPIKey) =
        expectedRequest st.config jsonBody :=
    fun jsonBody => setHeader_fresh st.config.LLMAPIURL st.config.LLMAPIKey jsonBody
  refine ⟨?_, ?_, ?_, ?_, ?_, ?_, ?_, ?_, ?_, ?_, ?_⟩
  · intro jsonBody e hm
    simp only [FailsWith, sendMessage, State.emit, hm, and_self]
  · intro jsonBody e hm hn
    simp only [FailsWith, sendMessage, State.emit, httpNewRequest, hm, hn, and_self]
  · intro jsonBody e hm hn hd
    simp only [FailsWith, sendMessage, State.emit, httpNewRequest, hm, hn, hreq, hd, and_self]
  · intro jsonBody status e hm hn hd
    simp only [FailsWith, sendMessage, State.emit, httpNewRequest, hm, hn, hreq, hd, and_self]
  · rintro status body ⟨jsonBody, hm, hn, hd⟩ hs
    unfold FailsWith
    rw [sendMessage_of_answer w st c jsonBody status body hm hn hd]
    simp [hs]
  · rintro body e ⟨jsonBody, hm, hn, hd⟩ hu
    unfold FailsWith
    rw [sendMessage_of_answer w st c jsonBody 200 body hm hn hd]
    simp [hu]
  · rintro body chatResp ⟨jsonBody, hm, hn, hd⟩ hu hc
    unfold FailsWith
    rw [sendMessage_of_answer w st c jsonBody 200 body hm hn hd]
    simp [hu, hc]
  · intro h
    rcases sendMessage_cases w c st with ⟨h1, _⟩ | ⟨_, _, h2⟩
    · exact absurd h1 h
    · exact h2
  · unfold sendMessage
    dsimp only
    repeat' split
    all_goals simp [State.emit]
  · rcases sendMessage_cases w c st with ⟨_, h2⟩ | ⟨_, _, h2⟩ <;> rw [h2] <;>
      exact List.prefix_append _ _
  · rcases sendMessage_cases w c st with ⟨_, h2⟩ | ⟨_, _, h2⟩ <;> rw [h2] <;> simp

/-- A world in which `json.Marshal` fails. -/
def marshalFailsWorld : World :=
  { jsonMarshal := fun _ => ("", some "json: unsupported value")
    newRequestErr := fun _ _ => none
    clientDo := fun _ => Except.ok ⟨200, Except.ok "\x7b\x7d"⟩
    render := fun s => Except.ok s }

/-- A world in which `http.NewRequest` rejects the URL. -/
def badURLWorld : World :=
  { jsonMarshal := fun req => (simMarshal req, none)
    newRequestErr := fun _ _ => some "invalid URL"
    clientDo := fun _ => Except.ok ⟨200, Except.ok "\x7b\x7d"⟩
    render := fun s => Except.ok s }

/-- A world without network: `client.Do` fails. -/
def offlineWorld : World :=
  { jsonMarshal := fun req => (simMarshal req, none)
    newRequestErr := fun _ _ => none
    clientDo := fun _ => Except.error "dial tcp: connection refused"
    render := fun s => Except.ok s }

/-- A world in which the connection breaks while the body is read. -/
def brokenBodyWorld : World :=
  { jsonMarshal := fun req => (simMarshal req, none)
    newRequestErr := fun _ _ => none
    clientDo := fun _ => Except.ok ⟨200, Except.error "unexpected EOF"⟩
    render := fun s => Except.ok s }

/-- C8, examples: a serialization failure, a rejected URL, a transport
failure and a read failure each leave the unanswered user turn. -/
theorem sendMessage_failure_transcript_witness :
    FailsWith marshalFailsWorld "Hi" freshSession
        "error marshaling request: json: unsupported value" ∧
      FailsWith badURLWorld "Hi" freshSession "error creating request: invalid URL" ∧
      FailsWith offlineWorld "Hi" freshSession
        "error sending request: dial tcp: connection refused" ∧
      FailsWith brokenBodyWorld "Hi" freshSession "error reading response: unexpected EOF" ∧
      (sendMessage offlineWorld "Hi" freshSession).2.messages =
        initialMessages ++ [Message.mk "user" "Hi"] :=
  ⟨(sendMessage_failure_transcript marshalFailsWorld "Hi" freshSession).1 "" _ rfl,
    (sendMessage_failure_transcript badURLWorld "Hi" freshSession).2.1 _ _ rfl rfl,
    (sendMessage_failure_transcript offlineWorld "Hi" freshSession).2.2.1 _ _ rfl rfl rfl,
    (sendMessage_failure_transcript brokenBodyWorld "Hi" freshSession).2.2.2.1 _ 200 _
      rfl rfl rfl,
    (sendMessage_failure_transcript offlineWorld "Hi" freshSession).2.2.2.2.2.2.2.1
      (by decide)⟩

/-- C10. When the request is serialized and created, `sendMessage(c)`
serializes a `ChatRequest` whose model is the configured model and whose
messages are the old transcript followed by the new user message, and hands
`client.Do` exactly one request: a POST to the configured URL whose body is
the serialized `ChatRequest`, with `Content-Type: application/json` and
`Authorization: Bearer <key>`. -/
theorem sendMessage_request (w : World) (st : State) (c jsonBody : String)
    (hm : w.jsonMarshal ⟨st.config.Model, st.messages ++ [Message.mk "user" c]⟩ = (jsonBody, none))
    (hn : w.newRequestErr "POST" st.config.LLMAPIURL = none) :
    ∃ req, (sendMessage w c st).2.trace =
        st.trace ++
          [Event.marshal ⟨st.config.Model, st.messages ++ [Message.mk "user" c]⟩,
            Event.httpDo req] ∧
      req.Method = "POST" ∧ req.URL = st.config.LLMAPIURL ∧ req.Body = jsonBody ∧
      req.getHeader "Content-Type" = some "application/json" ∧
      req.getHeader "Authorization" = some ("Bearer " ++ st.config.LLMAPIKey) := by
  refine ⟨expectedRequest st.config jsonBody, ?_, rfl, rfl, rfl, ?_, ?_⟩
  · have hreq := setHeader_fresh st.config.LLMAPIURL st.config.LLMAPIKey jsonBody
    simp only [expectedRequest] at hreq
    simp only [sendMessage, State.emit, httpNewRequest, hm, hn, hreq, expectedRequest]
    repeat' split
    all_goals simp
  · simp [expectedRequest, HTTPRequest.getHeader]
  · simp [expectedRequest, HTTPRequest.getHeader]

/-- C10, an example: the first request of a fresh session. -/
theorem sendMessage_request_witness :
    ∃ req, (sendMessage (simulatedAPI 200 "\x7b\x7d") "Hi" freshSession).2.trace =
        [Event.marshal ⟨"gpt-4", initialMessages ++ [Message.mk "user" "Hi"]⟩,
          Event.httpDo req] ∧
      req.Method = "POST" ∧ req.URL = "https://api.openai.com/v1/chat/completions" ∧
      req.Body = simMarshal ⟨"gpt-4", initialMessages ++ [Message.mk "user" "Hi"]⟩ ∧
      req.getHeader "Content-Type" = some "application/json" ∧
      req.getHeader "Authorization" = some "Bearer sk-test" :=
  sendMessage_request (simulatedAPI 200 "\x7b\x7d") freshSession "Hi" _ rfl rfl

/-- C9. For an input that is empty after trimming surrounding white space,
`executor` returns to the prompt and changes nothing: the transcript is the
same and the log of effects is the same, so nothing was serialized, no
request was sent and nothing was printed. -/
theorem executor_blank (w : World) (input : String) (st : State)
    (h : trimSpace input = "") :
    executor w input st = (Control.returned, st) := by
  simp [executor, h]

/-- C9, an example: an input of spaces, a tab and a newline. -/
theorem executor_blank_witness :
    trimSpace "  \t \n" = "" ∧
      executor (simulatedAPI 200 "\x7b\x7d") "  \t \n" freshSession =
        (Control.returned, freshSession) :=
  ⟨by decide, executor_blank _ _ _ (by decide)⟩

/-- C6. In every world and every state, `executor` terminates the process
exactly when the trimmed input is `exit` or `quit`, and then with exit code
0; for every other input it returns to the prompt. -/
theorem executor_exit_iff (w : World) (input : String) (st : State) :
    ((executor w input st).1 = Control.exited 0 ↔
        (trimSpace input = "exit" ∨ trimSpace input = "quit")) ∧
      ((executor w input st).1 = Control.returned ↔
        ¬(trimSpace input = "exit" ∨ trimSpace input = "quit")) := by
  unfold executor
  dsimp only
  by_cases h : trimSpace input = "exit" ∨ trimSpace input = "quit"
  · simp [h]
  · rw [if_neg h]
    constructor
    · constructor
      · intro hx
        repeat' split at hx
        all_goals simp at hx
      · intro hx
        exact absurd hx h
    · constructor
      · intro _
        exact h
      · intro _
        repeat' split
        all_goals rfl

/-- C5. For a config file that is read and unmarshalled without error, at
process start (`config` holds zero values), `loadConfig` returns no error
exactly when the three keys are present with non-empty values, and then
`config` holds the file's three values; otherwise it returns one of the
three `... is required in config` errors. -/
theorem loadConfig_valid_iff (f : ConfigFile) (st : State)
    (h0 : st.config = Config.zero) (hr : f.readErr = none) (hu : f.unmarshalErr = none) :
    ((loadConfig f st).1 = none ↔
        ∃ u k m, f.get "LLM_API_URL" = some u ∧ f.get "LLM_API_KEY" = some k ∧
          f.get "LLM_MODEL" = some m ∧ u ≠ "" ∧ k ≠ "" ∧ m ≠ "") ∧
      (∀ u k m, f.get "LLM_API_URL" = some u → f.get "LLM_API_KEY" = some k →
        f.get "LLM_MODEL" = some m → u ≠ "" → k ≠ "" → m ≠ "" →
        (loadConfig f st).1 = none ∧ (loadConfig f st).2.config = Config.mk u k m) ∧
      ((loadConfig f st).1 ≠ none →
        (loadConfig f st).1 = some "LLM_API_URL is required in config" ∨
          (loadConfig f st).1 = some "LLM_API_KEY is required in config" ∨
          (loadConfig f st).1 = some "LLM_MODEL is required in config") := by
  have hl1 : (loadConfig f st).1 =
      if (f.get "LLM_API_URL").getD "" = "" then some "LLM_API_URL is required in config"
      else if (f.get "LLM_API_KEY").getD "" = "" then some "LLM_API_KEY is required in config"
      else if (f.get "LLM_MODEL").getD "" = "" then some "LLM_MODEL is required in config"
      else none := by
    simp only [loadConfig, hr, hu, viperUnmarshal, h0, Config.zero]
    split_ifs <;> rfl
  have hl2 : (loadConfig f st).2.config =
      Config.mk ((f.get "LLM_API_URL").getD "") ((f.get "LLM_API_KEY").getD "")
        ((f.get "LLM_MODEL").getD "") := by
    simp only [loadConfig, hr, hu, viperUnmarshal, h0, Config.zero]
    split_ifs <;> rfl
  refine ⟨⟨?_, ?_⟩, ?_, ?_⟩
  · intro h
    rw [hl1] at h
    split_ifs at h with hU hK hM
    cases h1 : f.get "LLM_API_URL" with
    | none => simp [h1] at hU
    | some u =>
      cases h2 : f.get "LLM_API_KEY" with
      | none => simp [h2] at hK
      | some k =>
        cases h3 : f.get "LLM_MODEL" with
        | none => simp [h3] at hM
        | some m =>
          refine ⟨u, k, m, rfl, rfl, rfl, ?_, ?_, ?_⟩
          · simpa [h1] using hU
          · simpa [h2] using hK
          · simpa [h3] using hM
  · rintro ⟨u, k, m, h1, h2, h3, hu1, hk1, hm1⟩
    rw [hl1]
    simp [h1, h2, h3, hu1, hk1, hm1]
  · intro u k m h1 h2 h3 hu1 hk1 hm1
    rw [hl1, hl2]
    simp [h1, h2, h3, hu1, hk1, hm1]
  · intro hne
    rw [hl1] at hne ⊢
    split_ifs at hne ⊢ <;> simp at hne ⊢

/-- The default config file `main` writes, read back: the three keys with
the values of the template. -/
def defaultConfigFile : ConfigFile :=
  { readErr := none
    unmarshalErr := none
    get := fun key =>
      if key = "LLM_API_URL" then some "https://api.openai.com/v1/chat/completions"
      else if key = "LLM_API_KEY" then some "your_api_key_here"
      else if key = "LLM_MODEL" then some "gpt-4"
      else none }

/-- C5, an example: the template file loads and populates the three fields. -/
theorem loadConfig_valid_iff_witness :
    (loadConfig defaultConfigFile ⟨Config.zero, [], []⟩).1 = none ∧
      (loadConfig defaultConfigFile ⟨Config.zero, [], []⟩).2.config =
        Config.mk "https://api.openai.com/v1/chat/completions" "your_api_key_here" "gpt-4" :=
  (loadConfig_valid_iff defaultConfigFile ⟨Config.zero, [], []⟩ rfl rfl rfl).2.1
    "https://api.openai.com/v1/chat/completions" "your_api_key_here" "gpt-4"
    rfl rfl rfl (by decide) (by decide) (by decide)

/-- C4. Starting from the transcript `main` builds, after `N` calls of
`sendMessage` that all succeed the transcript has length `1 + 2 * N`, its
element 0 is the system message, and for every `i < N` its element
`2 * i + 1` is the user message of call `i` and its element `2 * i + 2` is
the assistant message carrying the reply of call `i`. -/
theorem transcript_after_turns (calls : List (World × String)) (st : State)
    (h0 : st.messages = initialMessages)
    (hok : ∀ r ∈ (sendAll calls st).1, r.err = none) :
    (sendAll calls st).2.messages.length = 1 + 2 * calls.length ∧
      (sendAll calls st).2.messages[0]? =
        some (Message.mk "system" "You are a helpful, accurate, and friendly AI assistant.") ∧
      ∀ i (hi : i < calls.length), ∃ r, (sendAll calls st).1[i]? = some r ∧
        (sendAll calls st).2.messages[2 * i + 1]? =
          some (Message.mk "user" (calls.get ⟨i, hi⟩).2) ∧
        (sendAll calls st).2.messages[2 * i + 2]? = some (Message.mk "assistant" r.text) := by
  obtain ⟨hl, hm⟩ := sendAll_success calls st hok
  have hlen : (calls.map Prod.snd).length = calls.length := List.length_map _ _
  have htl := turns_length (calls.map Prod.snd) (sendAll calls st).1 (by rw [hl, hlen])
  rw [hm, h0]
  refine ⟨?_, ?_, ?_⟩
  · rw [List.length_append, htl, hlen]
    rfl
  · simp [initialMessages]
  · intro i hi
    have hi2 : i < (sendAll calls st).1.length := by rw [hl]; exact hi
    refine ⟨(sendAll calls st).1.get ⟨i, hi2⟩, ?_, ?_⟩
    · exact List.getElem?_eq_getElem hi2
    · have hc : (calls.map Prod.snd)[i]? = some (calls.get ⟨i, hi⟩).2 := by
        simp [List.getElem?_eq_getElem hi]
      obtain ⟨h1, h2⟩ := turns_getElem (calls.map Prod.snd) (sendAll calls st).1 i _ _ hc
        (List.getElem?_eq_getElem hi2)
      have e1 : 2 * i + 1 = (2 * i) + 1 := rfl
      have e2 : 2 * i + 2 = (2 * i + 1) + 1 := rfl
      constructor
      · rw [e1]
        simpa [initialMessages] using h1
      · rw [e2]
        simpa [initialMessages] using h2

/-- Two turns against a simulated API that always answers `Hello!`. -/
def twoCalls : List (World × String) :=
  [(simulatedAPI 200
      "\x7b\"choices\":[\x7b\"message\":\x7b\"role\":\"assistant\",\"content\":\"Hello!\"\x7d\x7d]\x7d",
    "Hi"),
   (simulatedAPI 200
      "\x7b\"choices\":[\x7b\"index\":0,\"message\":\x7b\"content\":\"Fine.\"\x7d\x7d]\x7d",
    "How are you?")]

/-- C4, an example: two successful turns give a transcript of five messages. -/
theorem transcript_after_turns_witness :
    (sendAll twoCalls freshSession).2.messages.length = 1 + 2 * 2 ∧
      (sendAll twoCalls freshSession).2.messages =
        [Message.mk "system" "You are a helpful, accurate, and friendly AI assistant.",
          Message.mk "user" "Hi", Message.mk "assistant" "Hello!",
          Message.mk "user" "How are you?", Message.mk "assistant" "Fine."] :=
  ⟨(transcript_after_turns twoCalls freshSession rfl (by decide)).1, by decide⟩

end Shai
